import Mathlib

/-!
Verification of the call-session state machine of the chat client.

The development shallowly embeds the call/conference signalling code:
- CallService (services/call.service.ts): the two-party call state machine,
- PeerCallHook (the use-peer-call hook, first variant): the hook-based state
  machine carrying the 30 second dial timeout,
- PeerCall2 (the use-peer-call hook, second variant): the multi-peer map-based
  variant whose acceptCall sets the phase to active directly,
- MediaMgr: the two-phase model of ensureLocalStream exposing the await point
  of the getUserMedia provider call,
- Conference (hooks/use-conference.ts): the multi-party session.

External collaborators are modelled by their observable effects: the SimplePeer
connection is a record of the signals injected into it, the media provider is an
injected Option Nat (some fresh stream id on success, none on failure), and
emitted events are accumulated in per-state logs.
-/

/-- Signalling payload: an opaque SDP/ICE payload (sdp n) or one of the two
reserved control payloads, mirroring the duck-typed isControlSignal check. -/
inductive Payload : Type
| sdp (n : Nat)
| reject
| hangup
deriving DecidableEq, Repr

/-- isControlSignal from call.service.ts: true exactly on the payloads whose
type field is reject or hangup. -/
def isControlSignal : Payload → Bool
| Payload.reject => true
| Payload.hangup => true
| Payload.sdp _ => false

/-- CallState of call.service.ts: the discriminated union of call phases. -/
inductive CallState : Type
| idle
| dialing (targetId targetPseudo : String) (startedAt : Nat) (videoEnabled : Bool)
| incoming (fromId fromPseudo : String) (videoEnabled : Bool)
| active (peerId peerPseudo : String) (videoEnabled : Bool)
deriving DecidableEq, Repr

/-- Whether a CallState is the active phase. -/
def CallState.isActive : CallState → Bool
| CallState.active _ _ _ => true
| _ => false

/-- The SimplePeer connection wrapper, modelled by its observable interface:
identity, initiator flag, and the ordered list of signals injected via its
signal method. -/
structure PeerLink where
  id : String
  pseudo : String
  initiator : Bool
  received : List Payload
deriving DecidableEq, Repr

/-- The peerMeta record kept next to the connection (the onSignal emitter is an
external callback and is not part of the state). -/
structure PeerMeta where
  id : String
  pseudo : String
  videoEnabled : Bool
deriving DecidableEq, Repr

/-- Events emitted by the CallService to its listeners. -/
inductive Event : Type
| errorEvt (msg : String)
| stateChanged (st : CallState)
| remoteStreamReceived (sid : Nat)
| remoteStreamEnded
deriving DecidableEq, Repr

/-! Association lists with JS Map semantics (insertion order preserved,
set on an existing key updates in place). -/

/-- Map.get. -/
def alGet {α : Type} (k : String) : List (String × α) → Option α
| [] => none
| (k', v) :: rest => if k' = k then some v else alGet k rest

/-- Map.set: update in place if the key exists, else append. -/
def alPut {α : Type} (k : String) (v : α) : List (String × α) → List (String × α)
| [] => [(k, v)]
| (k', v') :: rest => if k' = k then (k', v) :: rest else (k', v') :: alPut k v rest

/-- Map.delete. -/
def alDel {α : Type} (k : String) : List (String × α) → List (String × α)
| [] => []
| (k', v') :: rest => if k' = k then rest else (k', v') :: alDel k rest

/-- The buffering idiom of the source: create the queue for the key if absent,
then push the payload at its end. -/
def alPush (k : String) (p : Payload) : List (String × List Payload) → List (String × List Payload)
| [] => [(k, [p])]
| (k', q) :: rest => if k' = k then (k', q ++ [p]) :: rest else (k', q) :: alPush k p rest

namespace CallService

/-- The mutable fields of the CallService class, together with observation
logs: events (emit calls), destroyedLog (snapshots of connections at the moment
peer.destroy() ran), stoppedStreams (local streams whose tracks were stopped),
and mediaCalls (number of getUserMedia invocations). -/
structure ServiceState where
  peer : Option PeerLink
  peerMeta : Option PeerMeta
  localStream : Option Nat
  remoteStream : Option Nat
  callState : CallState
  pendingSignals : List (String × List Payload)
  events : List Event
  destroyedLog : List PeerLink
  stoppedStreams : List Nat
  mediaCalls : Nat
deriving DecidableEq, Repr

/-- The freshly constructed service. -/
def initImpl : ServiceState :=
  { peer := none, peerMeta := none, localStream := none, remoteStream := none,
    callState := CallState.idle, pendingSignals := [], events := [],
    destroyedLog := [], stoppedStreams := [], mediaCalls := 0 }

/-- setState: store the call state and emit stateChanged. -/
def setState (st : CallState) (s : ServiceState) : ServiceState :=
  { s with callState := st, events := s.events ++ [Event.stateChanged st] }

/-- emit of an error event. -/
def emitError (msg : String) (s : ServiceState) : ServiceState :=
  { s with events := s.events ++ [Event.errorEvt msg] }

/-- stopLocalStream: stop every track of the local stream and clear the cache;
a no-op when nothing is held. -/
def stopLocalStream (s : ServiceState) : ServiceState :=
  match s.localStream with
  | some sid => { s with localStream := none, stoppedStreams := s.stoppedStreams ++ [sid] }
  | none => s

/-- The peer-destruction prefix of destroy: call peer.destroy() (errors
swallowed) and null the reference; the snapshot is archived for observation. -/
def archivePeer (s : ServiceState) : ServiceState :=
  match s.peer with
  | some p => { s with peer := none, destroyedLog := s.destroyedLog ++ [p] }
  | none => s

/-- destroy: tear down the connection, clear metadata, remote stream and all
pending signal queues, emit remoteStreamEnded, and unless keepLocalStream is
set, stop the local stream. -/
def destroy (keepLocalStream : Bool) (s : ServiceState) : ServiceState :=
  let s1 := archivePeer s
  let s2 := { s1 with peerMeta := none, remoteStream := none, pendingSignals := [],
                      events := s1.events ++ [Event.remoteStreamEnded] }
  if keepLocalStream then s2 else stopLocalStream s2

/-- peer.signal(p): inject a payload into the current connection if one exists
(the optional-chaining call of flushPendingSignals). -/
def injectSignal (p : Payload) (s : ServiceState) : ServiceState :=
  match s.peer with
  | some link => { s with peer := some { link with received := link.received ++ [p] } }
  | none => s

/-- flushPendingSignals: deliver every queued payload for the peer id, in
order, then delete the queue entry; returns unchanged when the queue is absent
or empty. -/
def flushPendingSignals (peerId : String) (s : ServiceState) : ServiceState :=
  match alGet peerId s.pendingSignals with
  | none => s
  | some q =>
    if q.isEmpty then s
    else
      let s1 := q.foldl (fun acc p => injectSignal p acc) s
      { s1 with pendingSignals := alDel peerId s1.pendingSignals }

/-- ensureLocalStream / ensureLocalStreamWithVideo: return the cached stream,
otherwise invoke getUserMedia (modelled by the injected media argument: some
fresh id on success, none on failure, each invocation counted). On failure an
error event is emitted and the rejection propagates (none). -/
def ensureLocalStream (media : Option Nat) (s : ServiceState) : ServiceState × Option Nat :=
  match s.localStream with
  | some sid => (s, some sid)
  | none =>
    match media with
    | some sid => ({ s with localStream := some sid, mediaCalls := s.mediaCalls + 1 }, some sid)
    | none => (emitError "media error" { s with mediaCalls := s.mediaCalls + 1 }, none)

/-- createPeer: no-op when a connection already exists; otherwise acquire the
local stream, construct the SimplePeer connection with its metadata, and flush
the pending signals buffered for this peer. The Bool is false when the media
acquisition rejected (the exception propagating to the caller). -/
def createPeer (peerId peerPseudo : String) (initiator videoEnabled : Bool)
    (media : Option Nat) (s : ServiceState) : ServiceState × Bool :=
  match s.peer with
  | some _ => (s, true)
  | none =>
    let r := ensureLocalStream media s
    match r.2 with
    | none => (r.1, false)
    | some _ =>
      let link : PeerLink := { id := peerId, pseudo := peerPseudo, initiator := initiator, received := [] }
      let s2 := { r.1 with peer := some link,
                           peerMeta := some { id := peerId, pseudo := peerPseudo, videoEnabled := videoEnabled } }
      (flushPendingSignals peerId s2, true)

/-- startCall: guarded on the existence of a connection; otherwise set the
dialing state and create the connection as initiator, reverting to idle if
media acquisition fails. -/
def startCall (targetId targetPseudo : String) (videoEnabled : Bool) (now : Nat)
    (media : Option Nat) (s : ServiceState) : ServiceState :=
  match s.peer with
  | some _ => emitError "Un appel est déjà en cours" s
  | none =>
    let s1 := setState (CallState.dialing targetId targetPseudo now videoEnabled) s
    let r := createPeer targetId targetPseudo true videoEnabled media s1
    if r.2 then r.1 else setState CallState.idle r.1

/-- acceptCall: guarded on the existence of a connection; otherwise create the
connection as non-initiator and flush the buffered signals for the caller,
reverting to idle if media acquisition fails. -/
def acceptCall (fromId fromPseudo : String) (videoEnabled : Bool)
    (media : Option Nat) (s : ServiceState) : ServiceState :=
  match s.peer with
  | some _ => emitError "Un appel est déjà en cours" s
  | none =>
    let r := createPeer fromId fromPseudo false videoEnabled media s
    if r.2 then flushPendingSignals fromId r.1 else setState CallState.idle r.1

/-- rejectCall: destroy and return to idle. -/
def rejectCall (s : ServiceState) : ServiceState :=
  setState CallState.idle (destroy false s)

/-- hangup: destroy and return to idle. -/
def hangup (s : ServiceState) : ServiceState :=
  setState CallState.idle (destroy false s)

/-- handleIncomingSignal: control payloads trigger immediate teardown; with no
connection the payload is buffered (transitioning idle to incoming); with a
connection the payload is injected into it (note: with no check of the sender
against the current peer identity). -/
def handleIncomingSignal (fromId fromPseudo : String) (sig : Payload) (videoEnabled : Bool)
    (s : ServiceState) : ServiceState :=
  if isControlSignal sig then
    setState CallState.idle (destroy false s)
  else
    match s.peer with
    | none =>
      let s1 := { s with pendingSignals := alPush fromId sig s.pendingSignals }
      match s1.callState with
      | CallState.idle => setState (CallState.incoming fromId fromPseudo videoEnabled) s1
      | _ => s1
    | some _ => injectSignal sig s

/-- The stream event handler installed by createPeer: record the remote stream
and transition to active. -/
def streamEvent (sid : Nat) (s : ServiceState) : ServiceState :=
  match s.peer, s.peerMeta with
  | some _, some m =>
    let s1 := { s with remoteStream := some sid,
                       events := s.events ++ [Event.remoteStreamReceived sid] }
    setState (CallState.active m.id m.pseudo m.videoEnabled) s1
  | _, _ => s

/-- The close event handler installed by createPeer. -/
def closeEvent (s : ServiceState) : ServiceState :=
  match s.peer with
  | some _ => destroy false s
  | none => s

/-- The error event handler installed by createPeer. -/
def peerErrorEvent (msg : String) (s : ServiceState) : ServiceState :=
  match s.peer with
  | some _ => destroy false (emitError msg s)
  | none => s

/-- The public operations of the service other than the stream event, used to
state that the active phase is unreachable without a stream event. -/
inductive Op : Type
| start (targetId targetPseudo : String) (videoEnabled : Bool) (now : Nat) (media : Option Nat)
| accept (fromId fromPseudo : String) (videoEnabled : Bool) (media : Option Nat)
| signalIn (fromId fromPseudo : String) (sig : Payload) (videoEnabled : Bool)
| rejectOp
| hangupOp
| closeOp
| errOp (msg : String)

/-- Interpretation of an operation. -/
def applyOp : Op → ServiceState → ServiceState
| Op.start t tp v now media, s => startCall t tp v now media s
| Op.accept f fp v media, s => acceptCall f fp v media s
| Op.signalIn f fp sig v, s => handleIncomingSignal f fp sig v s
| Op.rejectOp, s => rejectCall s
| Op.hangupOp, s => hangup s
| Op.closeOp, s => closeEvent s
| Op.errOp msg, s => peerErrorEvent msg s

/-- Run a sequence of operations. -/
def run (ops : List Op) (s : ServiceState) : ServiceState :=
  ops.foldl (fun acc op => applyOp op acc) s

/-- The session state of the service without the event log. -/
def core (s : ServiceState) :
    Option PeerLink × Option PeerMeta × Option Nat × Option Nat × CallState ×
    List (String × List Payload) × List PeerLink × List Nat × Nat :=
  (s.peer, s.peerMeta, s.localStream, s.remoteStream, s.callState,
   s.pendingSignals, s.destroyedLog, s.stoppedStreams, s.mediaCalls)

end CallService

namespace PeerCallHook

/-!
The first use-peer-call hook variant: same state shape as CallService but with
its own destroyPeer (which itself returns to idle), a sender check before
forwarding, and the 30 second dialing timeout effect.
-/

/-- The duration of the dialing timeout armed by the effect (milliseconds). -/
def DIAL_TIMEOUT_MS : Nat := 30000

/-- The refs and React state of the hook, with observation logs: errors
(onError calls), stateLog (setStateSafe calls, in order), destroyedLog,
stoppedStreams and mediaCalls as in the service model. -/
structure HookState where
  peer : Option PeerLink
  peerMeta : Option PeerMeta
  localStream : Option Nat
  remoteStream : Option Nat
  callState : CallState
  pendingSignals : List (String × List Payload)
  errors : List String
  stateLog : List CallState
  destroyedLog : List PeerLink
  stoppedStreams : List Nat
  mediaCalls : Nat
deriving DecidableEq, Repr

/-- The hook state at mount. -/
def initHook : HookState :=
  { peer := none, peerMeta := none, localStream := none, remoteStream := none,
    callState := CallState.idle, pendingSignals := [], errors := [],
    stateLog := [], destroyedLog := [], stoppedStreams := [], mediaCalls := 0 }

/-- setStateSafe: store the state and notify the state-change callback. -/
def setStateSafe (st : CallState) (s : HookState) : HookState :=
  { s with callState := st, stateLog := s.stateLog ++ [st] }

/-- onError callback invocation. -/
def onError (msg : String) (s : HookState) : HookState :=
  { s with errors := s.errors ++ [msg] }

/-- cleanupLocalStream: stop every track and clear the cached stream. -/
def cleanupLocalStream (s : HookState) : HookState :=
  match s.localStream with
  | some sid => { s with localStream := none, stoppedStreams := s.stoppedStreams ++ [sid] }
  | none => s

/-- destroyPeer: null the refs, destroy the connection (errors swallowed),
clear the buffers and the remote stream, release the local stream unless asked
to keep it, and return to idle. -/
def destroyPeer (keepLocalStream : Bool) (s : HookState) : HookState :=
  let s1 :=
    match s.peer with
    | some p => { s with peer := none, peerMeta := none, destroyedLog := s.destroyedLog ++ [p] }
    | none => { s with peer := none, peerMeta := none }
  let s2 := { s1 with pendingSignals := [], remoteStream := none }
  let s3 := if keepLocalStream then s2 else cleanupLocalStream s2
  setStateSafe CallState.idle s3

/-- peer.signal(p) on the current connection. -/
def injectSignal (p : Payload) (s : HookState) : HookState :=
  match s.peer with
  | some link => { s with peer := some { link with received := link.received ++ [p] } }
  | none => s

/-- flushPendingSignals of the hook: requires a live connection, then delivers
the queued payloads in order and deletes the queue entry. -/
def flushPendingSignals (peerId : String) (s : HookState) : HookState :=
  match s.peer with
  | none => s
  | some _ =>
    match alGet peerId s.pendingSignals with
    | none => s
    | some q =>
      if q.isEmpty then s
      else
        let s1 := q.foldl (fun acc p => injectSignal p acc) s
        { s1 with pendingSignals := alDel peerId s1.pendingSignals }

/-- ensureLocalStream / ensureLocalStreamWithVideo of the hook. -/
def ensureLocalStream (media : Option Nat) (s : HookState) : HookState × Option Nat :=
  match s.localStream with
  | some sid => (s, some sid)
  | none =>
    match media with
    | some sid => ({ s with localStream := some sid, mediaCalls := s.mediaCalls + 1 }, some sid)
    | none => (onError "media error" { s with mediaCalls := s.mediaCalls + 1 }, none)

/-- createPeer of the hook: one call at a time, acquire media, build the
connection with metadata, flush buffered signals. -/
def createPeer (peerId peerPseudo : String) (initiator videoEnabled : Bool)
    (media : Option Nat) (s : HookState) : HookState × Bool :=
  match s.peer with
  | some _ => (s, true)
  | none =>
    let r := ensureLocalStream media s
    match r.2 with
    | none => (r.1, false)
    | some _ =>
      let link : PeerLink := { id := peerId, pseudo := peerPseudo, initiator := initiator, received := [] }
      let s2 := { r.1 with peer := some link,
                           peerMeta := some { id := peerId, pseudo := peerPseudo, videoEnabled := videoEnabled } }
      (flushPendingSignals peerId s2, true)

/-- startCall of the hook: guarded on an existing connection, sets dialing then
creates the connection (no catch: on media failure the state stays dialing). -/
def startCall (targetId targetPseudo : String) (videoEnabled : Bool) (now : Nat)
    (media : Option Nat) (s : HookState) : HookState :=
  match s.peer with
  | some _ => onError "Un appel est déjà en cours" s
  | none =>
    let s1 := setStateSafe (CallState.dialing targetId targetPseudo now videoEnabled) s
    (createPeer targetId targetPseudo true videoEnabled media s1).1

/-- acceptCall of the hook: guarded on an existing connection, creates the
connection and flushes the buffered signals for the caller. -/
def acceptCall (fromId fromPseudo : String) (videoEnabled : Bool)
    (media : Option Nat) (s : HookState) : HookState :=
  match s.peer with
  | some _ => onError "Un appel est déjà en cours" s
  | none =>
    let r := createPeer fromId fromPseudo false videoEnabled media s
    if r.2 then flushPendingSignals fromId r.1 else r.1

/-- rejectCall of the hook: drop the buffered signals of the caller, idle. -/
def rejectCall (fromId : String) (s : HookState) : HookState :=
  setStateSafe CallState.idle { s with pendingSignals := alDel fromId s.pendingSignals }

/-- hangup of the hook. -/
def hangup (s : HookState) : HookState :=
  destroyPeer false s

/-- The forwarding guard of the hook: peerMeta exists and names the sender. -/
def metaMatches : Option PeerMeta → String → Bool
| some m, fid => decide (m.id = fid)
| none, _ => false

/-- Dialing to somebody other than the sender. -/
def dialingToOther : CallState → String → Bool
| CallState.dialing t _ _ _, fid => decide (t ≠ fid)
| _, _ => false

/-- Incoming from the same sender. -/
def incomingFromSame : CallState → String → Bool
| CallState.incoming f _ _, fid => decide (f = fid)
| _, _ => false

/-- handleIncomingSignal of the hook: control payloads tear down with a
distinct error; payloads from the current peer are forwarded; anything else is
buffered, surfacing an incoming state unless mid-dial to somebody else,
already active, or already incoming from this sender. -/
def handleIncomingSignal (fromId fromPseudo : String) (sig : Payload) (videoEnabled : Bool)
    (s : HookState) : HookState :=
  match sig with
  | Payload.reject => onError "Appel refusé" (destroyPeer false s)
  | Payload.hangup => onError "Appel terminé" (destroyPeer false s)
  | Payload.sdp d =>
    if metaMatches s.peerMeta fromId && s.peer.isSome then
      injectSignal (Payload.sdp d) s
    else
      let s1 := { s with pendingSignals := alPush fromId (Payload.sdp d) s.pendingSignals }
      if dialingToOther s1.callState fromId then s1
      else if s1.callState.isActive then s1
      else if incomingFromSame s1.callState fromId then s1
      else setStateSafe (CallState.incoming fromId fromPseudo false) s1

/-- The stream event handler of the hook. -/
def streamEvent (sid : Nat) (s : HookState) : HookState :=
  match s.peer, s.peerMeta with
  | some _, some m =>
    setStateSafe (CallState.active m.id m.pseudo m.videoEnabled) { s with remoteStream := some sid }
  | _, _ => s

/-- The firing of the dialing timeout effect: the timer is armed only while the
state is dialing (any state change clears it), and on expiry destroys the
connection, releases media, returns to idle and surfaces the timeout error. -/
def dialTimeoutFire (s : HookState) : HookState :=
  match s.callState with
  | CallState.dialing _ _ _ _ => onError "Aucune réponse (timeout)" (destroyPeer false s)
  | _ => s

end PeerCallHook

namespace PeerCall2

/-!
The second use-peer-call hook variant: a map of peers keyed by user id, no
control-signal handling, and an acceptCall that sets the phase to active
directly after setup.
-/

/-- The call state of the second variant (no timestamps or video flags). -/
inductive CallState2 : Type
| idle
| dialing (targetId targetPseudo : String)
| incoming (fromId fromPseudo : String)
| active (peerId peerPseudo : String)
deriving DecidableEq, Repr

/-- The refs and state of the second variant; streamEvents counts stream
events delivered by connections. -/
structure Hook2State where
  peers : List (String × PeerLink)
  pendingSignals : List (String × List Payload)
  localStream : Option Nat
  remoteStreams : List (String × Nat)
  callState : CallState2
  stateLog : List CallState2
  errors : List String
  mediaCalls : Nat
  streamEvents : Nat
deriving DecidableEq, Repr

/-- The second variant at mount. -/
def init2 : Hook2State :=
  { peers := [], pendingSignals := [], localStream := none, remoteStreams := [],
    callState := CallState2.idle, stateLog := [], errors := [], mediaCalls := 0,
    streamEvents := 0 }

/-- setCallState plus the state-change callback. -/
def setCallState2 (st : CallState2) (s : Hook2State) : Hook2State :=
  { s with callState := st, stateLog := s.stateLog ++ [st] }

/-- ensureLocalStream of the second variant. -/
def ensureLocalStream2 (media : Option Nat) (s : Hook2State) : Hook2State × Option Nat :=
  match s.localStream with
  | some sid => (s, some sid)
  | none =>
    match media with
    | some sid => ({ s with localStream := some sid, mediaCalls := s.mediaCalls + 1 }, some sid)
    | none => ({ s with errors := s.errors ++ ["media error"], mediaCalls := s.mediaCalls + 1 }, none)

/-- peer.signal on the connection for the given user id. -/
def inject2 (peerId : String) (p : Payload) (s : Hook2State) : Hook2State :=
  match alGet peerId s.peers with
  | some link => { s with peers := alPut peerId { link with received := link.received ++ [p] } s.peers }
  | none => s

/-- setupPeer: idempotent per user id, acquires media, stores the connection in
the map and delivers any buffered signals (deleting the queue). -/
def setupPeer (targetId targetPseudo : String) (initiator : Bool)
    (media : Option Nat) (s : Hook2State) : Hook2State × Bool :=
  match alGet targetId s.peers with
  | some _ => (s, true)
  | none =>
    let r := ensureLocalStream2 media s
    match r.2 with
    | none => (r.1, false)
    | some _ =>
      let link : PeerLink := { id := targetId, pseudo := targetPseudo, initiator := initiator, received := [] }
      let s2 := { r.1 with peers := alPut targetId link r.1.peers }
      match alGet targetId s2.pendingSignals with
      | none => (s2, true)
      | some q =>
        if q.isEmpty then (s2, true)
        else
          let s3 := q.foldl (fun acc p => inject2 targetId p acc) s2
          ({ s3 with pendingSignals := alDel targetId s3.pendingSignals }, true)

/-- startCall of the second variant: sets dialing after a successful setup. -/
def startCall2 (targetId targetPseudo : String) (media : Option Nat) (s : Hook2State) : Hook2State :=
  let r := setupPeer targetId targetPseudo true media s
  if r.2 then setCallState2 (CallState2.dialing targetId targetPseudo) r.1 else r.1

/-- acceptCall of the second variant: after a successful setup the state is set
to active directly (assuming the connection will succeed); on failure the state
is reset to idle. -/
def acceptCall2 (fromId fromPseudo : String) (media : Option Nat) (s : Hook2State) : Hook2State :=
  let r := setupPeer fromId fromPseudo false media s
  if r.2 then setCallState2 (CallState2.active fromId fromPseudo) r.1
  else setCallState2 CallState2.idle r.1

/-- handleIncomingSignal of the second variant: forward if a connection exists
for the sender, else buffer and surface incoming. -/
def handleIncomingSignal2 (fromId fromPseudo : String) (sig : Payload) (s : Hook2State) : Hook2State :=
  match alGet fromId s.peers with
  | some _ => inject2 fromId sig s
  | none =>
    let s1 := { s with pendingSignals := alPush fromId sig s.pendingSignals }
    setCallState2 (CallState2.incoming fromId fromPseudo) s1

/-- The stream event handler of the second variant: records the remote stream
and marks the call active. -/
def streamEvent2 (peerId : String) (sid : Nat) (s : Hook2State) : Hook2State :=
  match alGet peerId s.peers with
  | some link =>
    setCallState2 (CallState2.active peerId link.pseudo)
      { s with remoteStreams := alPut peerId sid s.remoteStreams,
               streamEvents := s.streamEvents + 1 }
  | none => s

end PeerCall2

namespace MediaMgr

/-!
The two-phase model of ensureLocalStream, exposing the await point of the
getUserMedia call: acquireStart is the synchronous prefix up to the await
(check the cache, otherwise issue a provider request), acquireResolve is the
continuation run when the provider promise resolves (cache the stream).
-/

/-- The local media manager state: the cached stream, the number of provider
requests currently unresolved, and the total number of provider requests
issued. -/
structure MgrState where
  localStream : Option Nat
  inFlight : Nat
  providerCalls : Nat
deriving DecidableEq, Repr

/-- The manager before any acquisition. -/
def initMgr : MgrState := { localStream := none, inFlight := 0, providerCalls := 0 }

/-- The synchronous prefix of ensureLocalStream: return the cached stream if
present (no provider call, Bool false), otherwise issue a getUserMedia request
(Bool true) whose resolution is a separate step. -/
def acquireStart (s : MgrState) : MgrState × Bool :=
  match s.localStream with
  | some _ => (s, false)
  | none => ({ s with inFlight := s.inFlight + 1, providerCalls := s.providerCalls + 1 }, true)

/-- The continuation after the await: the provider resolved with a stream,
which is cached. -/
def acquireResolve (sid : Nat) (s : MgrState) : MgrState :=
  { s with localStream := some sid, inFlight := s.inFlight - 1 }

end MediaMgr

namespace Conference

/-!
The useConference hook: a single conference session with a map of peers, a
shared local stream, and the start/join guard on the idle phase.
-/

/-- The coarse phase of the conference state. -/
inductive ConfPhase : Type
| idle
| initiating
| active
deriving DecidableEq, Repr

/-- The ConferencePeer view exposed in the active state (populated with the
empty list at start/join in the source). -/
structure ConfPeerView where
  id : String
  pseudo : String
  stream : Option Nat
  isActiveFlag : Bool
deriving DecidableEq, Repr

/-- ConferenceState of the hook. -/
inductive ConfState : Type
| idle
| initiating
| active (conferenceId : String) (peers : List ConfPeerView)
deriving DecidableEq, Repr

/-- The phase of a conference state. -/
def phaseOf : ConfState → ConfPhase
| ConfState.idle => ConfPhase.idle
| ConfState.initiating => ConfPhase.initiating
| ConfState.active _ _ => ConfPhase.active

/-- The per-peer data held in the peers map. -/
structure ConfPeerData where
  pseudo : String
  stream : Option Nat
  received : List Payload
deriving DecidableEq, Repr

/-- The refs and state of the conference hook. -/
structure ConfServiceState where
  confState : ConfState
  peers : List (String × ConfPeerData)
  localStream : Option Nat
  conferenceId : Option String
  pendingSignals : List (String × List Payload)
  errors : List String
  stateLog : List ConfState
  mediaCalls : Nat
  hasEmitter : Bool
deriving DecidableEq, Repr

/-- The conference hook at mount. -/
def initConf : ConfServiceState :=
  { confState := ConfState.idle, peers := [], localStream := none,
    conferenceId := none, pendingSignals := [], errors := [], stateLog := [],
    mediaCalls := 0, hasEmitter := false }

/-- setStateSafe of the conference hook. -/
def setStateSafeC (st : ConfState) (s : ConfServiceState) : ConfServiceState :=
  { s with confState := st, stateLog := s.stateLog ++ [st] }

/-- ensureLocalStream of the conference hook. -/
def ensureLocalStreamC (media : Option Nat) (s : ConfServiceState) : ConfServiceState × Option Nat :=
  match s.localStream with
  | some sid => (s, some sid)
  | none =>
    match media with
    | some sid => ({ s with localStream := some sid, mediaCalls := s.mediaCalls + 1 }, some sid)
    | none => ({ s with errors := s.errors ++ ["media error"], mediaCalls := s.mediaCalls + 1 }, none)

/-- startConference: throws when a conference is already in progress (phase not
idle), otherwise acquires media, stores the emitter and the freshly generated
conference id (injected as newId), and activates with zero peers. The Option
String result is the thrown error, none on success. -/
def startConference (newId : String) (media : Option Nat) (s : ConfServiceState) :
    ConfServiceState × Option String :=
  if phaseOf s.confState ≠ ConfPhase.idle then
    (s, some "Une conférence est déjà en cours")
  else
    let s1 := setStateSafeC ConfState.initiating s
    let r := ensureLocalStreamC media s1
    match r.2 with
    | none => (setStateSafeC ConfState.idle r.1, some "media error")
    | some _ =>
      let s3 := { r.1 with hasEmitter := true, conferenceId := some newId }
      (setStateSafeC (ConfState.active newId []) s3, none)

/-- joinConference: same guard as startConference, then activates directly for
the supplied conference id. -/
def joinConference (confId : String) (media : Option Nat) (s : ConfServiceState) :
    ConfServiceState × Option String :=
  if phaseOf s.confState ≠ ConfPhase.idle then
    (s, some "Une conférence est déjà en cours")
  else
    let s1 := setStateSafeC ConfState.initiating s
    let r := ensureLocalStreamC media s1
    match r.2 with
    | none => (setStateSafeC ConfState.idle r.1, some "media error")
    | some _ =>
      let s3 := { r.1 with hasEmitter := true, conferenceId := some confId }
      (setStateSafeC (ConfState.active confId []) s3, none)

end Conference

/-! Helper lemmas about the CallService model. -/

namespace CallService

/-- destroy with release of the local stream, written field by field. -/
lemma destroy_false_eq (s : ServiceState) :
    destroy false s =
      { peer := none, peerMeta := none, localStream := none,
        remoteStream := none, callState := s.callState,
        pendingSignals := [],
        events := s.events ++ [Event.remoteStreamEnded],
        destroyedLog := s.destroyedLog ++ s.peer.toList,
        stoppedStreams := s.stoppedStreams ++ s.localStream.toList,
        mediaCalls := s.mediaCalls } := by
  cases hp : s.peer <;> cases hl : s.localStream <;>
    simp [destroy, archivePeer, stopLocalStream, hp, hl]

/-- hangup, written field by field. -/
lemma hangup_eq (s : ServiceState) :
    hangup s =
      { peer := none, peerMeta := none, localStream := none,
        remoteStream := none, callState := CallState.idle,
        pendingSignals := [],
        events := s.events ++ [Event.remoteStreamEnded, Event.stateChanged CallState.idle],
        destroyedLog := s.destroyedLog ++ s.peer.toList,
        stoppedStreams := s.stoppedStreams ++ s.localStream.toList,
        mediaCalls := s.mediaCalls } := by
  simp [hangup, setState, destroy_false_eq]

/-- Injecting a list of payloads into a live connection appends them, in
order, to the signals the connection has received, and changes nothing else. -/
lemma foldl_injectSignal_eq (q : List Payload) :
    ∀ (s : ServiceState) (link : PeerLink), s.peer = some link →
      q.foldl (fun acc p => injectSignal p acc) s =
        { s with peer := some { link with received := link.received ++ q } } := by
  induction q with
  | nil =>
    intro s link h
    simp only [List.foldl_nil, List.append_nil]
    rw [← h]
  | cons p rest ih =>
    intro s link h
    have h1 : (injectSignal p s).peer =
        some { link with received := link.received ++ [p] } := by
      simp [injectSignal, h]
    rw [List.foldl_cons, ih (injectSignal p s) _ h1]
    simp [injectSignal, h, List.append_assoc]

/-- The call state is untouched by injecting payloads. -/
lemma foldl_injectSignal_callState (q : List Payload) :
    ∀ (s : ServiceState),
      (q.foldl (fun acc p => injectSignal p acc) s).callState = s.callState := by
  induction q with
  | nil => intro s; rfl
  | cons p rest ih =>
    intro s
    rw [List.foldl_cons, ih]
    cases h : s.peer <;> simp [injectSignal, h]

/-- The local stream is untouched by injecting payloads. -/
lemma foldl_injectSignal_localStream (q : List Payload) :
    ∀ (s : ServiceState),
      (q.foldl (fun acc p => injectSignal p acc) s).localStream = s.localStream := by
  induction q with
  | nil => intro s; rfl
  | cons p rest ih =>
    intro s
    rw [List.foldl_cons, ih]
    cases h : s.peer <;> simp [injectSignal, h]

/-- Flushing buffered signals never changes the call state. -/
lemma flushPendingSignals_callState (k : String) (s : ServiceState) :
    (flushPendingSignals k s).callState = s.callState := by
  unfold flushPendingSignals
  cases hq : alGet k s.pendingSignals with
  | none => rfl
  | some q =>
    by_cases he : q.isEmpty
    · simp [he]
    · simp [he, foldl_injectSignal_callState]

/-- ensureLocalStream never changes the call state. -/
lemma ensureLocalStream_callState (media : Option Nat) (s : ServiceState) :
    (ensureLocalStream media s).1.callState = s.callState := by
  unfold ensureLocalStream
  cases s.localStream <;> cases media <;> simp [emitError]

/-- createPeer never changes the call state. -/
lemma createPeer_callState (pid pp : String) (ini v : Bool) (media : Option Nat)
    (s : ServiceState) :
    (createPeer pid pp ini v media s).1.callState = s.callState := by
  unfold createPeer
  cases hp : s.peer with
  | some _ => rfl
  | none =>
    cases hr : (ensureLocalStream media s).2 with
    | none => simp only [hr]; exact ensureLocalStream_callState media s
    | some sid =>
      have h1 := ensureLocalStream_callState media s
      simp only [hr]
      rw [flushPendingSignals_callState]
      simpa using h1

end CallService

/-- Claim C3 (confirmed): a ControlSignal payload (reject or hangup) received
by handleIncomingSignal at any phase and from any sender destroys the current
PeerLink if one exists, drops every buffered signal, reverts the phase to
idle, and is itself never forwarded to the underlying peer connection: the
archived connection snapshot is exactly the connection as it was, with no
extra payload injected. -/
theorem CallService.control_signal_teardown (s : CallService.ServiceState)
    (fid fps : String) (v : Bool) :
    CallService.handleIncomingSignal fid fps Payload.reject v s =
      CallService.setState CallState.idle (CallService.destroy false s)
    ∧ CallService.handleIncomingSignal fid fps Payload.hangup v s =
      CallService.setState CallState.idle (CallService.destroy false s)
    ∧ (CallService.setState CallState.idle (CallService.destroy false s)).peer = none
    ∧ (CallService.setState CallState.idle (CallService.destroy false s)).pendingSignals = []
    ∧ (CallService.setState CallState.idle (CallService.destroy false s)).callState = CallState.idle
    ∧ (CallService.setState CallState.idle (CallService.destroy false s)).destroyedLog =
        s.destroyedLog ++ s.peer.toList := by
  refine ⟨rfl, rfl, ?_, ?_, ?_, ?_⟩ <;>
    simp [CallService.setState, CallService.destroy_false_eq]

/-- Claim C10 (confirmed): a reject or hangup ControlSignal delivered through
handleIncomingSignal by any sender, related to the current call or not, tears
down the current peer connection, stops the local media tracks, clears the
pending signal queues of every peer (the whole map, not only the entry of
the sender), and reverts to idle. -/
theorem CallService.control_signal_global_teardown (s : CallService.ServiceState)
    (fid fps : String) (v : Bool) :
    CallService.handleIncomingSignal fid fps Payload.reject v s =
      CallService.handleIncomingSignal fid fps Payload.hangup v s
    ∧ (CallService.handleIncomingSignal fid fps Payload.hangup v s).pendingSignals = []
    ∧ (CallService.handleIncomingSignal fid fps Payload.hangup v s).peer = none
    ∧ (CallService.handleIncomingSignal fid fps Payload.hangup v s).localStream = none
    ∧ (CallService.handleIncomingSignal fid fps Payload.hangup v s).stoppedStreams =
        s.stoppedStreams ++ s.localStream.toList
    ∧ (CallService.handleIncomingSignal fid fps Payload.hangup v s).destroyedLog =
        s.destroyedLog ++ s.peer.toList
    ∧ (CallService.handleIncomingSignal fid fps Payload.hangup v s).callState = CallState.idle := by
  refine ⟨rfl, ?_, ?_, ?_, ?_, ?_, ?_⟩ <;>
    simp [CallService.handleIncomingSignal, isControlSignal,
      CallService.setState, CallService.destroy_false_eq]

/-- Claim C8 (confirmed): teardown is idempotent. Calling hangup twice in a
row from any state, or the internal destroy twice, leaves the session state
(everything but the event log) after the second call identical to the state
after the first; the second call stops no media track and its only emitted
events are the teardown notifications, never an error. -/
theorem CallService.teardown_idempotent (s : CallService.ServiceState) :
    CallService.core (CallService.hangup (CallService.hangup s)) =
      CallService.core (CallService.hangup s)
    ∧ (CallService.hangup (CallService.hangup s)).stoppedStreams =
        (CallService.hangup s).stoppedStreams
    ∧ (CallService.hangup (CallService.hangup s)).events =
        (CallService.hangup s).events ++
          [Event.remoteStreamEnded, Event.stateChanged CallState.idle]
    ∧ CallService.core (CallService.destroy false (CallService.destroy false s)) =
        CallService.core (CallService.destroy false s)
    ∧ (CallService.destroy false (CallService.destroy false s)).events =
        (CallService.destroy false s).events ++ [Event.remoteStreamEnded] := by
  refine ⟨?_, ?_, ?_, ?_, ?_⟩ <;>
    simp [CallService.hangup_eq, CallService.destroy_false_eq, CallService.core]

/-- Claim C1 (counterexample): the in-progress guard is on the existence of a
PeerLink, not on the phase. After a single buffered incoming payload the phase
is incoming (not idle) while no PeerLink exists, and acceptCall invoked in
that state succeeds: it emits no error event at all and mutates the session
state, creating the PeerLink and delivering the buffered payload, contradicting
the claim that any startCall or acceptCall at a non-idle phase fails without
mutating state. -/
theorem CallService.busy_guard_counterexample :
    (CallService.handleIncomingSignal "B" "Bob" (Payload.sdp 5) false
        CallService.initImpl).callState = CallState.incoming "B" "Bob" false
    ∧ (CallService.handleIncomingSignal "B" "Bob" (Payload.sdp 5) false
        CallService.initImpl).peer = none
    ∧ (CallService.acceptCall "B" "Bob" false (some 1)
        (CallService.handleIncomingSignal "B" "Bob" (Payload.sdp 5) false
          CallService.initImpl)).events =
      (CallService.handleIncomingSignal "B" "Bob" (Payload.sdp 5) false
        CallService.initImpl).events
    ∧ (CallService.acceptCall "B" "Bob" false (some 1)
        (CallService.handleIncomingSignal "B" "Bob" (Payload.sdp 5) false
          CallService.initImpl)).peer =
      some { id := "B", pseudo := "Bob", initiator := false, received := [Payload.sdp 5] } := by
  decide

/-- Claim C1 (amended, confirmed): for every call to startCall or acceptCall
made while a PeerLink exists, the operation fails by emitting the
call-in-progress error and nothing else: the resulting state is the input
state with only that error event appended, so phase, peer, peer metadata,
local stream and the pending signal queues are exactly as they were. -/
theorem CallService.busy_guard_no_mutation (s : CallService.ServiceState)
    (p : PeerLink) (t tp : String) (v : Bool) (now : Nat) (media : Option Nat)
    (f fp : String) (v' : Bool) (media' : Option Nat)
    (h : s.peer = some p) :
    CallService.startCall t tp v now media s =
      CallService.emitError "Un appel est déjà en cours" s
    ∧ CallService.acceptCall f fp v' media' s =
      CallService.emitError "Un appel est déjà en cours" s
    ∧ (CallService.emitError "Un appel est déjà en cours" s).callState = s.callState
    ∧ (CallService.emitError "Un appel est déjà en cours" s).peer = s.peer
    ∧ (CallService.emitError "Un appel est déjà en cours" s).peerMeta = s.peerMeta
    ∧ (CallService.emitError "Un appel est déjà en cours" s).pendingSignals = s.pendingSignals
    ∧ (CallService.emitError "Un appel est déjà en cours" s).localStream = s.localStream
    ∧ (CallService.emitError "Un appel est déjà en cours" s).events =
        s.events ++ [Event.errorEvt "Un appel est déjà en cours"] := by
  refine ⟨?_, ?_, rfl, rfl, rfl, rfl, rfl, rfl⟩ <;>
    simp [CallService.startCall, CallService.acceptCall, h]

/-- Witness for the amended C1 guard theorem, at the state reached by a
successful startCall. -/
theorem CallService.busy_guard_no_mutation_witness :
    (CallService.startCall "P" "Pat" false 0 (some 1) CallService.initImpl).peer =
      some { id := "P", pseudo := "Pat", initiator := true, received := [] }
    ∧ (CallService.startCall "X" "Xena" false 1 (some 2)
          (CallService.startCall "P" "Pat" false 0 (some 1) CallService.initImpl) =
        CallService.emitError "Un appel est déjà en cours"
          (CallService.startCall "P" "Pat" false 0 (some 1) CallService.initImpl)
      ∧ CallService.acceptCall "Y" "Yara" false (some 3)
          (CallService.startCall "P" "Pat" false 0 (some 1) CallService.initImpl) =
        CallService.emitError "Un appel est déjà en cours"
          (CallService.startCall "P" "Pat" false 0 (some 1) CallService.initImpl)
      ∧ (CallService.emitError "Un appel est déjà en cours"
          (CallService.startCall "P" "Pat" false 0 (some 1) CallService.initImpl)).callState =
        (CallService.startCall "P" "Pat" false 0 (some 1) CallService.initImpl).callState
      ∧ (CallService.emitError "Un appel est déjà en cours"
          (CallService.startCall "P" "Pat" false 0 (some 1) CallService.initImpl)).peer =
        (CallService.startCall "P" "Pat" false 0 (some 1) CallService.initImpl).peer
      ∧ (CallService.emitError "Un appel est déjà en cours"
          (CallService.startCall "P" "Pat" false 0 (some 1) CallService.initImpl)).peerMeta =
        (CallService.startCall "P" "Pat" false 0 (some 1) CallService.initImpl).peerMeta
      ∧ (CallService.emitError "Un appel est déjà en cours"
          (CallService.startCall "P" "Pat" false 0 (some 1) CallService.initImpl)).pendingSignals =
        (CallService.startCall "P" "Pat" false 0 (some 1) CallService.initImpl).pendingSignals
      ∧ (CallService.emitError "Un appel est déjà en cours"
          (CallService.startCall "P" "Pat" false 0 (some 1) CallService.initImpl)).localStream =
        (CallService.startCall "P" "Pat" false 0 (some 1) CallService.initImpl).localStream
      ∧ (CallService.emitError "Un appel est déjà en cours"
          (CallService.startCall "P" "Pat" false 0 (some 1) CallService.initImpl)).events =
        (CallService.startCall "P" "Pat" false 0 (some 1) CallService.initImpl).events ++
          [Event.errorEvt "Un appel est déjà en cours"]) :=
  ⟨by decide,
   CallService.busy_guard_no_mutation
     (CallService.startCall "P" "Pat" false 0 (some 1) CallService.initImpl)
     { id := "P", pseudo := "Pat", initiator := true, received := [] }
     "X" "Xena" false 1 (some 2) "Y" "Yara" false (some 3) (by decide)⟩

namespace CallService

/-- Every operation other than the stream event preserves the property that
the phase is not active. -/
lemma applyOp_not_active (op : Op) (s : ServiceState)
    (h : s.callState.isActive = false) :
    ((applyOp op s).callState).isActive = false := by
  cases op with
  | start t tp v now media =>
    show ((startCall t tp v now media s).callState).isActive = false
    cases hp : s.peer with
    | some p => simp only [startCall, hp]; exact h
    | none =>
      simp only [startCall, hp]
      by_cases hk :
          (createPeer t tp true v media (setState (CallState.dialing t tp now v) s)).2 = true
      · rw [if_pos hk, createPeer_callState]; rfl
      · rw [if_neg hk]; rfl
  | accept f fp v media =>
    show ((acceptCall f fp v media s).callState).isActive = false
    cases hp : s.peer with
    | some p => simp only [acceptCall, hp]; exact h
    | none =>
      simp only [acceptCall, hp]
      by_cases hk : (createPeer f fp false v media s).2 = true
      · rw [if_pos hk, flushPendingSignals_callState, createPeer_callState]; exact h
      · rw [if_neg hk]; rfl
  | signalIn f fp sig v =>
    show ((handleIncomingSignal f fp sig v s).callState).isActive = false
    cases sig with
    | reject => rfl
    | hangup => rfl
    | sdp d =>
      have hcond : isControlSignal (Payload.sdp d) = false := rfl
      simp only [handleIncomingSignal, hcond, Bool.false_eq_true, if_false]
      cases hp : s.peer with
      | some p => simp only [hp]; simpa [injectSignal, hp] using h
      | none =>
        simp only [hp]
        cases hst : s.callState <;> simp_all [setState, CallState.isActive]
  | rejectOp =>
    show ((rejectCall s).callState).isActive = false
    rfl
  | hangupOp =>
    show ((hangup s).callState).isActive = false
    rfl
  | closeOp =>
    show ((closeEvent s).callState).isActive = false
    cases hp : s.peer with
    | none => simp only [closeEvent, hp]; exact h
    | some p => simp only [closeEvent, hp]; rw [destroy_false_eq]; exact h
  | errOp msg =>
    show ((peerErrorEvent msg s).callState).isActive = false
    cases hp : s.peer with
    | none => simp only [peerErrorEvent, hp]; exact h
    | some p => simp only [peerErrorEvent, hp]; rw [destroy_false_eq]; exact h

/-- Running operations from a non-active state never reaches active. -/
lemma run_not_active (ops : List Op) :
    ∀ (s : ServiceState), s.callState.isActive = false →
      ((run ops s).callState).isActive = false := by
  induction ops with
  | nil => intro s h; exact h
  | cons op rest ih =>
    intro s h
    exact ih (applyOp op s) (applyOp_not_active op s h)

end CallService

/-- Claim C4 (amended, confirmed for CallService): starting at the fresh
service, no sequence of startCall, acceptCall, handleIncomingSignal,
rejectCall, hangup, or connection close/error callbacks, without a stream
event, ever sets the phase to active; only the stream event handler installed
by createPeer transitions the phase to active. -/
theorem CallService.active_only_after_stream (ops : List CallService.Op) :
    ((CallService.run ops CallService.initImpl).callState).isActive = false :=
  CallService.run_not_active ops CallService.initImpl rfl

/-- Claim C4 (counterexample): in the second use-peer-call variant, acceptCall
sets the phase to active directly after a successful setup. After one buffered
incoming payload, accepting the call yields the active phase while zero stream
events have been delivered, refuting the claim that the phase becomes active
only as a consequence of a stream event. -/
theorem PeerCall2.accept_active_without_stream :
    (PeerCall2.acceptCall2 "A" "Alice" (some 1)
        (PeerCall2.handleIncomingSignal2 "A" "Alice" (Payload.sdp 1)
          PeerCall2.init2)).callState = PeerCall2.CallState2.active "A" "Alice"
    ∧ (PeerCall2.acceptCall2 "A" "Alice" (some 1)
        (PeerCall2.handleIncomingSignal2 "A" "Alice" (Payload.sdp 1)
          PeerCall2.init2)).streamEvents = 0 := by
  decide

namespace CallService

/-- A non-control payload arriving with no connection present is buffered at
the end of the queue of the sender and touches neither the connection slot nor the
local stream. -/
lemma handleIncomingSignal_sdp_noPeer (fid fps : String) (d : Nat) (v : Bool)
    (s : ServiceState) (h : s.peer = none) :
    (handleIncomingSignal fid fps (Payload.sdp d) v s).peer = none
    ∧ (handleIncomingSignal fid fps (Payload.sdp d) v s).localStream = s.localStream
    ∧ (handleIncomingSignal fid fps (Payload.sdp d) v s).pendingSignals =
        alPush fid (Payload.sdp d) s.pendingSignals := by
  have hcond : isControlSignal (Payload.sdp d) = false := rfl
  simp only [handleIncomingSignal, hcond, Bool.false_eq_true, if_false, h]
  cases hst : s.callState <;> simp_all [setState]

/-- Buffering a whole burst of payloads with no connection present: the
connection slot stays empty, the local stream is untouched, and the queues
accumulate the payloads in arrival order. -/
lemma buffer_fold (fid fps : String) (v : Bool) (ds : List Nat) :
    ∀ s : ServiceState, s.peer = none →
      (ds.foldl (fun acc d => handleIncomingSignal fid fps (Payload.sdp d) v acc) s).peer = none
      ∧ (ds.foldl (fun acc d => handleIncomingSignal fid fps (Payload.sdp d) v acc) s).localStream
          = s.localStream
      ∧ (ds.foldl (fun acc d => handleIncomingSignal fid fps (Payload.sdp d) v acc) s).pendingSignals
          = ds.foldl (fun m d => alPush fid (Payload.sdp d) m) s.pendingSignals := by
  induction ds with
  | nil => intro s h; exact ⟨h, rfl, rfl⟩
  | cons d rest ih =>
    intro s h
    obtain ⟨h1, h2, h3⟩ := handleIncomingSignal_sdp_noPeer fid fps d v s h
    obtain ⟨g1, g2, g3⟩ := ih (handleIncomingSignal fid fps (Payload.sdp d) v s) h1
    refine ⟨?_, ?_, ?_⟩
    · simpa [List.foldl_cons] using g1
    · rw [List.foldl_cons, g2, h2]
    · rw [List.foldl_cons, g3, h3, List.foldl_cons]

/-- Pushing a burst into the singleton queue of one sender appends it. -/
lemma foldl_alPush_single (fid : String) (ds : List Nat) :
    ∀ q : List Payload,
      ds.foldl (fun m d => alPush fid (Payload.sdp d) m) [(fid, q)] =
        [(fid, q ++ ds.map Payload.sdp)] := by
  induction ds with
  | nil => intro q; simp
  | cons d rest ih =>
    intro q
    rw [List.foldl_cons]
    have hstep : alPush fid (Payload.sdp d) [(fid, q)] = [(fid, q ++ [Payload.sdp d])] := by
      simp [alPush]
    rw [hstep, ih (q ++ [Payload.sdp d])]
    simp

/-- acceptCall on a state with no connection, no local stream, and exactly the
nonempty queue of the caller buffered: the created connection receives the queued
payloads once, in order, and the queue map ends empty. -/
lemma acceptCall_queue (fid fps : String) (sid : Nat) (qs : List Payload)
    (s : ServiceState) (hp : s.peer = none) (hl : s.localStream = none)
    (hq : s.pendingSignals = [(fid, qs)]) (hne : qs.isEmpty = false) :
    (acceptCall fid fps false (some sid) s).peer =
      some { id := fid, pseudo := fps, initiator := false, received := qs }
    ∧ (acceptCall fid fps false (some sid) s).pendingSignals = [] := by
  have e1 : ensureLocalStream (some sid) s =
      ({ s with localStream := some sid, mediaCalls := s.mediaCalls + 1 }, some sid) := by
    simp [ensureLocalStream, hl]
  set link : PeerLink := { id := fid, pseudo := fps, initiator := false, received := [] }
    with hlink
  set s2 : ServiceState :=
    { s with localStream := some sid, mediaCalls := s.mediaCalls + 1,
             peer := some link,
             peerMeta := some { id := fid, pseudo := fps, videoEnabled := false } }
    with hs2
  have h2p : s2.peer = some link := rfl
  have h2q : s2.pendingSignals = [(fid, qs)] := hq
  have hget : alGet fid s2.pendingSignals = some qs := by rw [h2q]; simp [alGet]
  have hdel : alDel fid s2.pendingSignals = [] := by rw [h2q]; simp [alDel]
  have hflush : flushPendingSignals fid s2 =
      { s2 with peer := some { link with received := qs }, pendingSignals := [] } := by
    unfold flushPendingSignals
    rw [hget]
    simp only [hne, Bool.false_eq_true, if_false]
    rw [foldl_injectSignal_eq qs s2 link h2p]
    simp [hdel]
  have hcp : createPeer fid fps false false (some sid) s = (flushPendingSignals fid s2, true) := by
    simp only [createPeer, hp, e1]
  have hacc : acceptCall fid fps false (some sid) s =
      flushPendingSignals fid (flushPendingSignals fid s2) := by
    simp only [acceptCall, hp, hcp, if_true]
  have hsecond : flushPendingSignals fid
      ({ s2 with peer := some { link with received := qs }, pendingSignals := [] }) =
      { s2 with peer := some { link with received := qs }, pendingSignals := [] } := by
    unfold flushPendingSignals
    simp [alGet]
  rw [hacc, hflush, hsecond]
  exact ⟨rfl, rfl⟩

/-- acceptCall on a state with no connection, no local stream and empty
queues: the connection is created having received nothing. -/
lemma acceptCall_empty (fid fps : String) (sid : Nat) (s : ServiceState)
    (hp : s.peer = none) (hl : s.localStream = none)
    (hq : s.pendingSignals = []) :
    (acceptCall fid fps false (some sid) s).peer =
      some { id := fid, pseudo := fps, initiator := false, received := [] }
    ∧ (acceptCall fid fps false (some sid) s).pendingSignals = [] := by
  have e1 : ensureLocalStream (some sid) s =
      ({ s with localStream := some sid, mediaCalls := s.mediaCalls + 1 }, some sid) := by
    simp [ensureLocalStream, hl]
  set link : PeerLink := { id := fid, pseudo := fps, initiator := false, received := [] }
    with hlink
  set s2 : ServiceState :=
    { s with localStream := some sid, mediaCalls := s.mediaCalls + 1,
             peer := some link,
             peerMeta := some { id := fid, pseudo := fps, videoEnabled := false } }
    with hs2
  have h2q : s2.pendingSignals = [] := hq
  have hget : alGet fid s2.pendingSignals = none := by rw [h2q]; simp [alGet]
  have hflush : flushPendingSignals fid s2 = s2 := by
    unfold flushPendingSignals
    rw [hget]
  have hcp : createPeer fid fps false false (some sid) s = (flushPendingSignals fid s2, true) := by
    simp only [createPeer, hp, e1]
  have hacc : acceptCall fid fps false (some sid) s =
      flushPendingSignals fid (flushPendingSignals fid s2) := by
    simp only [acceptCall, hp, hcp, if_true]
  rw [hacc, hflush, hflush]
  exact ⟨rfl, h2q⟩

end CallService

/-- Claim C2 (confirmed): for every burst of SDP/ICE payloads delivered by one
peer through handleIncomingSignal before acceptCall, the acceptCall that
creates the PeerLink delivers every buffered payload to it exactly once and in
arrival order (the connection has received precisely that list), and the
queue entry of the sender is deleted, so the second flush performed by acceptCall
after the one inside createPeer delivers nothing again. -/
theorem CallService.buffered_signals_flushed_once (ds : List Nat) (fid fps : String) (sid : Nat) :
    (CallService.acceptCall fid fps false (some sid)
        (ds.foldl (fun acc d => CallService.handleIncomingSignal fid fps (Payload.sdp d) false acc)
          CallService.initImpl)).peer =
      some { id := fid, pseudo := fps, initiator := false, received := ds.map Payload.sdp }
    ∧ alGet fid (CallService.acceptCall fid fps false (some sid)
        (ds.foldl (fun acc d => CallService.handleIncomingSignal fid fps (Payload.sdp d) false acc)
          CallService.initImpl)).pendingSignals = none := by
  obtain ⟨b1, b2, b3⟩ :=
    CallService.buffer_fold fid fps false ds CallService.initImpl rfl
  cases ds with
  | nil =>
    obtain ⟨r1, r2⟩ := CallService.acceptCall_empty fid fps sid CallService.initImpl rfl rfl rfl
    simp only [List.foldl_nil, List.map_nil]
    exact ⟨r1, by rw [r2]; rfl⟩
  | cons d rest =>
    have hq : (((d :: rest).foldl
          (fun acc d => CallService.handleIncomingSignal fid fps (Payload.sdp d) false acc)
          CallService.initImpl)).pendingSignals =
        [(fid, (d :: rest).map Payload.sdp)] := by
      rw [b3]
      rw [List.foldl_cons]
      have hfirst : alPush fid (Payload.sdp d) CallService.initImpl.pendingSignals =
          [(fid, [Payload.sdp d])] := rfl
      rw [hfirst, CallService.foldl_alPush_single fid rest [Payload.sdp d]]
      simp
    obtain ⟨r1, r2⟩ := CallService.acceptCall_queue fid fps sid
      ((d :: rest).map Payload.sdp) _ b1 b2 hq (by simp)
    exact ⟨r1, by rw [r2]; rfl⟩

/-- Claim C6 (counterexample): while dialing peer P with a live PeerLink, an
SDP/ICE payload from the unrelated sender Q is not ignored by the CallService:
handleIncomingSignal checks only that a connection exists, not who sent the
payload, and injects the payload of Q straight into the PeerLink to P. -/
theorem CallService.foreign_sender_forwarded_counterexample :
    ("Q" : String) ≠ "P"
    ∧ (CallService.startCall "P" "Pat" false 0 (some 1) CallService.initImpl).peerMeta =
        some { id := "P", pseudo := "Pat", videoEnabled := false }
    ∧ (CallService.handleIncomingSignal "Q" "Quinn" (Payload.sdp 7) false
        (CallService.startCall "P" "Pat" false 0 (some 1) CallService.initImpl)).peer =
      some { id := "P", pseudo := "Pat", initiator := true, received := [Payload.sdp 7] } := by
  decide

namespace PeerCallHook

/-- When the forwarding guard of the hook fails, a non-control payload is
buffered at the end of the queue of the sender and the connection slot is
untouched. -/
lemma hook_buffer_branch (fid fps : String) (d : Nat) (v : Bool) (s : HookState)
    (hcond : (metaMatches s.peerMeta fid && s.peer.isSome) = false) :
    (handleIncomingSignal fid fps (Payload.sdp d) v s).peer = s.peer
    ∧ (handleIncomingSignal fid fps (Payload.sdp d) v s).pendingSignals =
        alPush fid (Payload.sdp d) s.pendingSignals := by
  simp only [handleIncomingSignal, hcond, Bool.false_eq_true, if_false]
  constructor <;> (split_ifs <;> simp [setStateSafe])

/-- destroyPeer with release of the local stream, written field by field. -/
lemma destroyPeer_false_eq (s : HookState) :
    destroyPeer false s =
      { peer := none, peerMeta := none, localStream := none, remoteStream := none,
        callState := CallState.idle, pendingSignals := [],
        errors := s.errors, stateLog := s.stateLog ++ [CallState.idle],
        destroyedLog := s.destroyedLog ++ s.peer.toList,
        stoppedStreams := s.stoppedStreams ++ s.localStream.toList,
        mediaCalls := s.mediaCalls } := by
  cases hp : s.peer <;> cases hl : s.localStream <;>
    simp [destroyPeer, cleanupLocalStream, setStateSafe, hp, hl]

end PeerCallHook

/-- Claim C6 (amended, confirmed for the hook variant): in the use-peer-call
hook, while a PeerLink to peer P exists, a non-control payload from a sender
different from P is never forwarded to that PeerLink (the connection is left
exactly as it was) and is buffered under the foreign sender instead, while a
payload from P itself is injected into the PeerLink. -/
theorem PeerCallHook.foreign_sender_not_forwarded (s : PeerCallHook.HookState)
    (m : PeerMeta) (p : PeerLink) (fid fps : String) (d : Nat) (v : Bool)
    (h1 : s.peerMeta = some m) (h2 : s.peer = some p) (h3 : m.id ≠ fid) :
    (PeerCallHook.handleIncomingSignal fid fps (Payload.sdp d) v s).peer = some p
    ∧ (PeerCallHook.handleIncomingSignal fid fps (Payload.sdp d) v s).pendingSignals =
        alPush fid (Payload.sdp d) s.pendingSignals
    ∧ (PeerCallHook.handleIncomingSignal m.id fps (Payload.sdp d) v s).peer =
        some { p with received := p.received ++ [Payload.sdp d] } := by
  have hcond : (PeerCallHook.metaMatches s.peerMeta fid && s.peer.isSome) = false := by
    rw [h1]
    simp [PeerCallHook.metaMatches, h3]
  obtain ⟨g1, g2⟩ := PeerCallHook.hook_buffer_branch fid fps d v s hcond
  refine ⟨by rw [g1, h2], g2, ?_⟩
  have hcond2 : (PeerCallHook.metaMatches s.peerMeta m.id && s.peer.isSome) = true := by
    rw [h1, h2]
    simp [PeerCallHook.metaMatches]
  simp only [PeerCallHook.handleIncomingSignal, hcond2, if_true]
  simp [PeerCallHook.injectSignal, h2]

/-- Witness for the amended C6 theorem, at the hook state reached by a
successful startCall to P, with a payload from the unrelated sender Q. -/
theorem PeerCallHook.foreign_sender_not_forwarded_witness :
    (PeerCallHook.startCall "P" "Pat" false 0 (some 1) PeerCallHook.initHook).peerMeta =
      some { id := "P", pseudo := "Pat", videoEnabled := false }
    ∧ (PeerCallHook.startCall "P" "Pat" false 0 (some 1) PeerCallHook.initHook).peer =
      some { id := "P", pseudo := "Pat", initiator := true, received := [] }
    ∧ ({ id := "P", pseudo := "Pat", videoEnabled := false } : PeerMeta).id ≠ "Q"
    ∧ ((PeerCallHook.handleIncomingSignal "Q" "Quinn" (Payload.sdp 7) false
          (PeerCallHook.startCall "P" "Pat" false 0 (some 1) PeerCallHook.initHook)).peer =
        some { id := "P", pseudo := "Pat", initiator := true, received := [] }
      ∧ (PeerCallHook.handleIncomingSignal "Q" "Quinn" (Payload.sdp 7) false
          (PeerCallHook.startCall "P" "Pat" false 0 (some 1) PeerCallHook.initHook)).pendingSignals =
        alPush "Q" (Payload.sdp 7)
          (PeerCallHook.startCall "P" "Pat" false 0 (some 1) PeerCallHook.initHook).pendingSignals
      ∧ (PeerCallHook.handleIncomingSignal
          ({ id := "P", pseudo := "Pat", videoEnabled := false } : PeerMeta).id "Quinn"
          (Payload.sdp 7) false
          (PeerCallHook.startCall "P" "Pat" false 0 (some 1) PeerCallHook.initHook)).peer =
        some { id := "P", pseudo := "Pat", initiator := true, received := [] ++ [Payload.sdp 7] }) :=
  ⟨by decide, by decide, by decide,
   PeerCallHook.foreign_sender_not_forwarded
     (PeerCallHook.startCall "P" "Pat" false 0 (some 1) PeerCallHook.initHook)
     { id := "P", pseudo := "Pat", videoEnabled := false }
     { id := "P", pseudo := "Pat", initiator := true, received := [] }
     "Q" "Quinn" 7 false (by decide) (by decide) (by decide)⟩

/-- Claim C5 (counterexample): the CallService dial path has no timeout. The
class sets startedAt but contains no timer consuming it, and its state evolves
only under its operations, so a startCall that never receives a stream event
simply stays dialing: at this concrete input the reached state is dialing and
the complete list of emitted events is the single dialing state change — no
transition to idle and no timeout error ever occur, refuting the claim that
every startCall with no stream event within 30 seconds auto-cancels. -/
theorem CallService.no_dial_timeout :
    (CallService.startCall "B" "Bob" false 0 (some 1) CallService.initImpl).callState =
      CallState.dialing "B" "Bob" 0 false
    ∧ (CallService.startCall "B" "Bob" false 0 (some 1) CallService.initImpl).events =
      [Event.stateChanged (CallState.dialing "B" "Bob" 0 false)] := by
  decide

/-- Claim C5 (amended, confirmed for the hook variant): only the use-peer-call
hook has a dial timeout; there, the 30 second timer is armed exactly while the
phase is dialing (any state change clears it), and its firing destroys the
PeerLink, releases the local media stream, reverts the phase to idle exactly
once (a single state-change notification, to idle), and surfaces the distinct
no-answer timeout error. -/
theorem PeerCallHook.dial_timeout_cancels (s : PeerCallHook.HookState)
    (t tp : String) (st : Nat) (v : Bool)
    (h : s.callState = CallState.dialing t tp st v) :
    (PeerCallHook.dialTimeoutFire s).callState = CallState.idle
    ∧ (PeerCallHook.dialTimeoutFire s).peer = none
    ∧ (PeerCallHook.dialTimeoutFire s).destroyedLog = s.destroyedLog ++ s.peer.toList
    ∧ (PeerCallHook.dialTimeoutFire s).localStream = none
    ∧ (PeerCallHook.dialTimeoutFire s).stoppedStreams =
        s.stoppedStreams ++ s.localStream.toList
    ∧ (PeerCallHook.dialTimeoutFire s).stateLog = s.stateLog ++ [CallState.idle]
    ∧ (PeerCallHook.dialTimeoutFire s).errors = s.errors ++ ["Aucune réponse (timeout)"] := by
  simp only [PeerCallHook.dialTimeoutFire, h]
  rw [PeerCallHook.destroyPeer_false_eq]
  simp [PeerCallHook.onError]

/-- Witness for the C5 timeout theorem, at the hook state reached by a
successful startCall (which is dialing). -/
theorem PeerCallHook.dial_timeout_cancels_witness :
    (PeerCallHook.startCall "B" "Bob" false 0 (some 1) PeerCallHook.initHook).callState =
      CallState.dialing "B" "Bob" 0 false
    ∧ ((PeerCallHook.dialTimeoutFire
          (PeerCallHook.startCall "B" "Bob" false 0 (some 1) PeerCallHook.initHook)).callState =
        CallState.idle
      ∧ (PeerCallHook.dialTimeoutFire
          (PeerCallHook.startCall "B" "Bob" false 0 (some 1) PeerCallHook.initHook)).peer = none
      ∧ (PeerCallHook.dialTimeoutFire
          (PeerCallHook.startCall "B" "Bob" false 0 (some 1) PeerCallHook.initHook)).destroyedLog =
        (PeerCallHook.startCall "B" "Bob" false 0 (some 1) PeerCallHook.initHook).destroyedLog ++
          (PeerCallHook.startCall "B" "Bob" false 0 (some 1) PeerCallHook.initHook).peer.toList
      ∧ (PeerCallHook.dialTimeoutFire
          (PeerCallHook.startCall "B" "Bob" false 0 (some 1) PeerCallHook.initHook)).localStream = none
      ∧ (PeerCallHook.dialTimeoutFire
          (PeerCallHook.startCall "B" "Bob" false 0 (some 1) PeerCallHook.initHook)).stoppedStreams =
        (PeerCallHook.startCall "B" "Bob" false 0 (some 1) PeerCallHook.initHook).stoppedStreams ++
          (PeerCallHook.startCall "B" "Bob" false 0 (some 1) PeerCallHook.initHook).localStream.toList
      ∧ (PeerCallHook.dialTimeoutFire
          (PeerCallHook.startCall "B" "Bob" false 0 (some 1) PeerCallHook.initHook)).stateLog =
        (PeerCallHook.startCall "B" "Bob" false 0 (some 1) PeerCallHook.initHook).stateLog ++
          [CallState.idle]
      ∧ (PeerCallHook.dialTimeoutFire
          (PeerCallHook.startCall "B" "Bob" false 0 (some 1) PeerCallHook.initHook)).errors =
        (PeerCallHook.startCall "B" "Bob" false 0 (some 1) PeerCallHook.initHook).errors ++
          ["Aucune réponse (timeout)"]) :=
  ⟨by decide,
   PeerCallHook.dial_timeout_cancels
     (PeerCallHook.startCall "B" "Bob" false 0 (some 1) PeerCallHook.initHook)
     "B" "Bob" 0 false (by decide)⟩

/-- Claim C7 (counterexample): ensureLocalStream caches only the resolved
stream, not the in-flight getUserMedia promise. With the first acquisition
still unresolved (one request in flight, nothing cached), a second acquire
runs the same cache check, finds nothing, and issues a second provider call:
two provider calls in total, contradicting the claim that the second caller
awaits the same underlying request. -/
theorem MediaMgr.inflight_duplicate_provider_call :
    (MediaMgr.acquireStart MediaMgr.initMgr).1.inFlight = 1
    ∧ (MediaMgr.acquireStart MediaMgr.initMgr).1.localStream = none
    ∧ (MediaMgr.acquireStart (MediaMgr.acquireStart MediaMgr.initMgr).1).2 = true
    ∧ (MediaMgr.acquireStart (MediaMgr.acquireStart MediaMgr.initMgr).1).1.providerCalls = 2 := by
  decide

/-- Claim C7 (amended, confirmed): the manager de-duplicates only settled
acquisitions. Once a provider request has resolved and the stream is cached,
every further acquire returns the cached stream and issues no provider call;
but an acquire made while a provider request is still unresolved does issue a
second provider call. -/
theorem MediaMgr.resolved_acquire_deduplicated (s : MediaMgr.MgrState) (sid : Nat) :
    MediaMgr.acquireStart (MediaMgr.acquireResolve sid s) =
      (MediaMgr.acquireResolve sid s, false) := by
  rfl

/-- Claim C9 (confirmed): startConference and joinConference called while the
conference phase is not idle throw the already-in-progress error before any
mutation: the returned state is exactly the input state, so the phase, the
peer map, the pending signal queues and the local stream are all unchanged. -/
theorem Conference.start_join_guard (s : Conference.ConfServiceState)
    (newId confId : String) (media media' : Option Nat)
    (h : Conference.phaseOf s.confState ≠ Conference.ConfPhase.idle) :
    Conference.startConference newId media s = (s, some "Une conférence est déjà en cours")
    ∧ Conference.joinConference confId media' s = (s, some "Une conférence est déjà en cours") := by
  constructor
  · unfold Conference.startConference
    rw [if_pos h]
  · unfold Conference.joinConference
    rw [if_pos h]

/-- Witness for the C9 guard theorem, at a conference state in the initiating
phase. -/
theorem Conference.start_join_guard_witness :
    Conference.phaseOf (Conference.ConfServiceState.mk Conference.ConfState.initiating
        [] none none [] [] [] 0 false).confState ≠ Conference.ConfPhase.idle
    ∧ (Conference.startConference "c1" (some 1)
          (Conference.ConfServiceState.mk Conference.ConfState.initiating
            [] none none [] [] [] 0 false) =
        (Conference.ConfServiceState.mk Conference.ConfState.initiating
          [] none none [] [] [] 0 false, some "Une conférence est déjà en cours")
      ∧ Conference.joinConference "c2" (some 2)
          (Conference.ConfServiceState.mk Conference.ConfState.initiating
            [] none none [] [] [] 0 false) =
        (Conference.ConfServiceState.mk Conference.ConfState.initiating
          [] none none [] [] [] 0 false, some "Une conférence est déjà en cours")) :=
  ⟨by decide,
   Conference.start_join_guard
     (Conference.ConfServiceState.mk Conference.ConfState.initiating [] none none [] [] [] 0 false)
     "c1" "c2" (some 1) (some 2) (by decide)⟩



